import Mathlib

/-! Verification development for the NearestStopLocator component of the
financetools repository: a shallow embedding of the functions of
nearest_bus_stop_to_me_streamlit_hardcode_directions_v2.py together with
theorems about them.

The CSV rows carry coordinates of an arbitrary type and the scan loop is
stated relative to an arbitrary distance function into a linear order,
because the loop itself only calls the distance function and compares the
results; the program instantiates the coordinates with (real-valued)
floating point numbers and the distance with haversine_distance. -/

/-- One parsed data row of the CSV table: columns stop, name_en, dir, route,
lat, long (the fields read by find_nearest_bus_stop at lines 27 to 30). -/
structure StopRow (α : Type) where
  stop : String
  name_en : String
  dir : String
  route : String
  lat : α
  long : α

/-- Stop descriptor stored in the route index: the tuple
(row.stop, row.name_en, row.dir) built at line 30 of the source. -/
abbrev StopInfo : Type := String × String × String

/-- Tuple of display fields of a row, as appended to route_stops. -/
def rowInfo {α : Type} (r : StopRow α) : StopInfo := (r.stop, r.name_en, r.dir)

/-- State of the loop of find_nearest_bus_stop: one field per local variable
initialised at lines 15 to 22.  nearest_distance lives in WithTop so that the
initial value float('inf') is representable as the top element.  route_stops
models the Python dict as an association list: keys in first-insertion order,
values in append order, exactly as a Python dict preserves them. -/
@[ext]
structure ScanState (α β : Type) where
  nearest_stop : Option String
  nearest_stop_name_en : Option String
  nearest_stop_dir : Option String
  nearest_distance : WithTop β
  nearest_routes : List String
  route_stops : List (String × List StopInfo)
  nearest_lat : Option α
  nearest_lon : Option α

/-- Initial loop state (lines 15 to 22): everything unset, distance infinite. -/
def initState {α β : Type} : ScanState α β :=
  { nearest_stop := none
    nearest_stop_name_en := none
    nearest_stop_dir := none
    nearest_distance := ⊤
    nearest_routes := []
    route_stops := []
    nearest_lat := none
    nearest_lon := none }

/-- Dict update of lines 31 to 33: if the route key is absent a fresh empty
list is created (at the end, preserving insertion order), then the stop tuple
is appended to the route's list. -/
def addStop : List (String × List StopInfo) → String → StopInfo → List (String × List StopInfo)
  | [], route, s => [(route, [s])]
  | p :: ps, route, s =>
    if p.1 = route then (p.1, p.2 ++ [s]) :: ps else p :: addStop ps route s

/-- Dict lookup route_stops[route], as used by the route summary display loop
at lines 85 to 88. -/
def lookupRoute : List (String × List StopInfo) → String → Option (List StopInfo)
  | [], _ => none
  | p :: ps, route => if p.1 = route then some p.2 else lookupRoute ps route

/-- One iteration of the loop body (lines 26 to 44): update route_stops,
compute the distance of the row, then either take the row as the new best
(strictly smaller distance), or append its route to the tied routes (equal
distance and route not yet recorded), or leave the best data unchanged. -/
def stepRow {α β : Type} [LinearOrder β] (dist : α → α → α → α → β) (lat lon : α)
    (s : ScanState α β) (r : StopRow α) : ScanState α β :=
  if (↑(dist lat lon r.lat r.long) : WithTop β) < s.nearest_distance then
    { nearest_stop := some r.stop
      nearest_stop_name_en := some r.name_en
      nearest_stop_dir := some r.dir
      nearest_distance := ↑(dist lat lon r.lat r.long)
      nearest_routes := [r.route]
      route_stops := addStop s.route_stops r.route (rowInfo r)
      nearest_lat := some r.lat
      nearest_lon := some r.long }
  else if (↑(dist lat lon r.lat r.long) : WithTop β) = s.nearest_distance
      ∧ r.route ∉ s.nearest_routes then
    { s with nearest_routes := s.nearest_routes ++ [r.route]
             route_stops := addStop s.route_stops r.route (rowInfo r) }
  else
    { s with route_stops := addStop s.route_stops r.route (rowInfo r) }

/-- Body of find_nearest_bus_stop (lines 14 to 46) on an already parsed table,
relative to an arbitrary distance function: the linear scan of the rows. -/
def find_nearest_core {α β : Type} [LinearOrder β] (dist : α → α → α → α → β)
    (rows : List (StopRow α)) (lat lon : α) : ScanState α β :=
  rows.foldl (stepRow dist lat lon) initState

/-- Python math.radians: degrees to radians. -/
noncomputable def radians (x : ℝ) : ℝ := x * (Real.pi / 180)

/-- Lines 5 to 12: the haversine great-circle distance with Earth radius
6371 km, with floating point numbers modelled as real numbers. -/
noncomputable def haversine_distance (lat1 lon1 lat2 lon2 : ℝ) : ℝ :=
  let rlat1 := radians lat1
  let rlon1 := radians lon1
  let rlat2 := radians lat2
  let rlon2 := radians lon2
  let dlon := rlon2 - rlon1
  let dlat := rlat2 - rlat1
  let a := Real.sin (dlat / 2) ^ 2 + Real.cos rlat1 * Real.cos rlat2 * Real.sin (dlon / 2) ^ 2
  let c := 2 * Real.arcsin (Real.sqrt a)
  c * 6371

/-- The program's scan: find_nearest_core instantiated at the haversine
distance on real-valued coordinates, as called at line 81. -/
noncomputable def find_nearest_bus_stop (rows : List (StopRow ℝ)) (lat lon : ℝ) :
    ScanState ℝ ℝ :=
  find_nearest_core haversine_distance rows lat lon

/-- The spec's routeSummary, read off the display loop at lines 85 to 88:
route_stops[route][0] and route_stops[route][-1].  An absent route (the
UnknownRoute case) yields none. -/
def routeSummary (idx : List (String × List StopInfo)) (route : String) :
    Option (StopInfo × StopInfo) :=
  match lookupRoute idx route with
  | none => none
  | some seq =>
    match seq.head?, seq.getLast? with
    | some a, some b => some (a, b)
    | _, _ => none

/-- Result of Python float conversion: a finite value (modelled as a
rational, since every parsed decimal literal is rational), an infinity, or
a NaN. -/
inductive PyFloat where
  | finite (val : ℚ)
  | inf
  | negInf
  | nan
deriving DecidableEq

/-- Test for a finite float value. -/
def PyFloat.isFinite : PyFloat → Bool
  | .finite _ => true
  | _ => false

/-- Numeric value of a digit string. -/
def digitsToNat (cs : List Char) : ℕ :=
  cs.foldl (fun a c => 10 * a + (c.toNat - 48)) 0

/-- Leading and trailing whitespace removal, as Python float() performs on
its string argument. -/
def trimChars (cs : List Char) : List Char :=
  ((cs.dropWhile Char.isWhitespace).reverse.dropWhile Char.isWhitespace).reverse

/-- Python str.split on a comma: the list of (possibly empty) chunks between
commas; the empty string yields one empty chunk. -/
def splitOnComma : List Char → List (List Char)
  | [] => [[]]
  | c :: t =>
    let r := splitOnComma t
    if c = ',' then [] :: r
    else
      match r with
      | [] => [[c]]
      | h :: t2 => (c :: h) :: t2

/-- Rational value of a decimal literal: integer digits value, fractional
digits value, number of fractional digits, decimal exponent. -/
def decimalToRat (ipv fpv fplen : ℕ) (e : ℤ) : ℚ :=
  ((ipv : ℚ) + (fpv : ℚ) / (10 : ℚ) ^ fplen) * (10 : ℚ) ^ e

/-- Unsigned numeric part of the Python float literal grammar:
digits [. digits] [e [sign] digits], where at least one digit must appear
before or after the decimal point.  Returns the denoted rational value. -/
def parseUnsigned (cs : List Char) : Option ℚ :=
  let ip := cs.takeWhile Char.isDigit
  let rest := cs.dropWhile Char.isDigit
  let fpRest : List Char × List Char :=
    match rest with
    | '.' :: t => (t.takeWhile Char.isDigit, t.dropWhile Char.isDigit)
    | _ => ([], rest)
  let fp := fpRest.1
  let rest2 := fpRest.2
  let expOpt : Option ℤ :=
    match rest2 with
    | [] => some 0
    | 'e' :: t =>
      let signRest : ℤ × List Char :=
        match t with
        | '+' :: u => (1, u)
        | '-' :: u => (-1, u)
        | _ => (1, t)
      let ed := signRest.2.takeWhile Char.isDigit
      if ed.isEmpty || !(signRest.2.dropWhile Char.isDigit).isEmpty then none
      else some (signRest.1 * (digitsToNat ed : ℤ))
    | _ => none
  if ip.isEmpty && fp.isEmpty then none
  else
    match expOpt with
    | none => none
    | some e => some (decimalToRat (digitsToNat ip) (digitsToNat fp) fp.length e)

/-- Python float(string) conversion: strip whitespace, optional sign, then
either inf / infinity / nan (case insensitive) or a numeric literal; any
other shape raises ValueError, modelled as none. -/
def pyFloatChars (input : List Char) : Option PyFloat :=
  let cs := (trimChars input).map Char.toLower
  let signBody : Bool × List Char :=
    match cs with
    | '+' :: t => (false, t)
    | '-' :: t => (true, t)
    | _ => (false, cs)
  let neg := signBody.1
  let body := signBody.2
  if body = ['i', 'n', 'f'] ∨ body = ['i', 'n', 'f', 'i', 'n', 'i', 't', 'y'] then
    some (if neg then PyFloat.negInf else PyFloat.inf)
  else if body = ['n', 'a', 'n'] then some PyFloat.nan
  else
    match parseUnsigned body with
    | some q => some (PyFloat.finite (if neg then -q else q))
    | none => none

/-- Python float conversion on a string. -/
def pyFloat (s : String) : Option PyFloat := pyFloatChars s.data

/-- One raw CSV row as handed over by csv.DictReader: every column is still
a string; lat and long are parsed by float() inside the loop (lines 27, 28). -/
structure RawRow where
  stop : String
  name_en : String
  dir : String
  route : String
  lat : String
  long : String

/-- Lines 27 and 28 for one raw row: float(row['lat']), float(row['long']).
A non-numeric field makes float() raise ValueError, modelled as none. -/
def parseRow (r : RawRow) : Option (StopRow PyFloat) :=
  match pyFloat r.lat, pyFloat r.long with
  | some la, some lo =>
    some { stop := r.stop, name_en := r.name_en, dir := r.dir, route := r.route,
           lat := la, long := lo }
  | _, _ => none

/-- The scan loop over raw rows: the first row whose lat or long fails float()
raises ValueError, aborting the whole call with no partial result; otherwise
the parsed row is processed by the loop body.  Relative to an arbitrary
distance function on parsed float values. -/
def scanRaw {β : Type} [LinearOrder β] (dist : PyFloat → PyFloat → PyFloat → PyFloat → β)
    (lat lon : PyFloat) :
    ScanState PyFloat β → List RawRow → Except String (ScanState PyFloat β)
  | s, [] => Except.ok s
  | s, r :: rs =>
    match parseRow r with
    | none => Except.error "ValueError"
    | some row => scanRaw dist lat lon (stepRow dist lat lon s row) rs

/-- find_nearest_bus_stop on the raw CSV rows, with the row parsing of lines
27 and 28 made explicit: a malformed row aborts the call. -/
def find_nearest_from_raw {β : Type} [LinearOrder β]
    (dist : PyFloat → PyFloat → PyFloat → PyFloat → β)
    (raw : List RawRow) (lat lon : PyFloat) : Except String (ScanState PyFloat β) :=
  scanRaw dist lat lon initState raw

/-- Module-level query parsing (line 73): gps_input.split(',') mapped through
float() and unpacked into exactly two values; any ValueError (wrong arity or
a chunk float() rejects) is caught at lines 74 to 76. -/
def parse_gps (gps_input : String) : Option (PyFloat × PyFloat) :=
  match (splitOnComma gps_input.data).map pyFloatChars with
  | [some a, some b] => some (a, b)
  | _ => none

/-- Module-level control flow (lines 72 to 81): if the query string fails to
parse, st.error plus st.stop surface the error and the scan never runs;
otherwise the scan is invoked on the two parsed values.  Relative to an
arbitrary distance function on parsed float values. -/
def locate_on_query {β : Type} [LinearOrder β]
    (dist : PyFloat → PyFloat → PyFloat → PyFloat → β)
    (rows : List (StopRow PyFloat)) (gps_input : String) :
    Except String (ScanState PyFloat β) :=
  match parse_gps gps_input with
  | none => Except.error "invalid GPS coordinates"
  | some (lat, lon) => Except.ok (find_nearest_core dist rows lat lon)

/-- Whether an Except value is a success. -/
def exceptOk {ε γ : Type} : Except ε γ → Bool
  | Except.ok _ => true
  | Except.error _ => false

/-- Distance of a row to the query point. -/
def rowDist {α β : Type} (dist : α → α → α → α → β) (lat lon : α) (r : StopRow α) : β :=
  dist lat lon r.lat r.long

/-- Minimal distance over a table, with top for the empty table (the value of
nearest_distance after the scan). -/
def minDT {α β : Type} [LinearOrder β] (dist : α → α → α → α → β) (lat lon : α)
    (rows : List (StopRow α)) : WithTop β :=
  rows.foldl (fun m r => min m ↑(rowDist dist lat lon r)) ⊤

/-- Rows of the table achieving the minimal distance, in scan order. -/
def achievers {α β : Type} [LinearOrder β] (dist : α → α → α → α → β) (lat lon : α)
    (rows : List (StopRow α)) : List (StopRow α) :=
  rows.filter fun r =>
    decide ((↑(rowDist dist lat lon r) : WithTop β) = minDT dist lat lon rows)

/-- Append an element at the end unless already present (the tie branch of
line 43 and 44). -/
def addDistinct (acc : List String) (x : String) : List String :=
  if x ∈ acc then acc else acc ++ [x]

/-- The tied route list: distinct routes of the minimum-achieving rows, in
scan order of their first tied occurrence. -/
def routesOf {α β : Type} [LinearOrder β] (dist : α → α → α → α → β) (lat lon : α)
    (rows : List (StopRow α)) : List String :=
  ((achievers dist lat lon rows).map (fun r => r.route)).foldl addDistinct []

/-- The route index built by the scan: every row appended to its route's list
in table order. -/
def buildIndex {α : Type} (rows : List (StopRow α)) : List (String × List StopInfo) :=
  rows.foldl (fun idx r => addStop idx r.route (rowInfo r)) []

/-- Closed-form description of the scan result: best fields from the first
minimum-achieving row, minimal distance, deduplicated tied routes, full route
index. -/
def specState {α β : Type} [LinearOrder β] (dist : α → α → α → α → β) (lat lon : α)
    (rows : List (StopRow α)) : ScanState α β :=
  { nearest_stop := ((achievers dist lat lon rows).head?).map (fun r => r.stop)
    nearest_stop_name_en := ((achievers dist lat lon rows).head?).map (fun r => r.name_en)
    nearest_stop_dir := ((achievers dist lat lon rows).head?).map (fun r => r.dir)
    nearest_distance := minDT dist lat lon rows
    nearest_routes := routesOf dist lat lon rows
    route_stops := buildIndex rows
    nearest_lat := ((achievers dist lat lon rows).head?).map (fun r => r.lat)
    nearest_lon := ((achievers dist lat lon rows).head?).map (fun r => r.long) }

/-- Row A of the spec's scenario table. -/
def rowA : StopRow ℝ :=
  { stop := "A", name_en := "Stop A", dir := "O", route := "1", lat := 22, long := 114 }

/-- Row B of the spec's scenario table. -/
def rowB : StopRow ℝ :=
  { stop := "B", name_en := "Stop B", dir := "O", route := "2", lat := 22, long := 114 }

/-- Row C of the spec's scenario table. -/
def rowC : StopRow ℝ :=
  { stop := "C", name_en := "Stop C", dir := "I", route := "1", lat := 22.5, long := 114.5 }

/-- The spec's three-row scenario table. -/
def scenarioRows : List (StopRow ℝ) := [rowA, rowB, rowC]

/-- A raw row whose latitude is not numeric: float() raises on it. -/
def rawBadRow : RawRow :=
  { stop := "X", name_en := "Stop X", dir := "O", route := "9", lat := "abc", long := "0" }

/-- A raw row with a numeric but out-of-range latitude of 200 degrees. -/
def rawRangeRow : RawRow :=
  { stop := "Y", name_en := "Stop Y", dir := "O", route := "9", lat := "200", long := "0" }

/-- A rational-valued placeholder distance function used to instantiate the
distance-generic control-flow theorems at concrete inputs. -/
def zeroDist : PyFloat → PyFloat → PyFloat → PyFloat → ℚ := fun _ _ _ _ => 0

theorem core_append_singleton {α β : Type} [LinearOrder β] (dist : α → α → α → α → β)
    (lat lon : α) (l : List (StopRow α)) (r : StopRow α) :
    find_nearest_core dist (l ++ [r]) lat lon =
      stepRow dist lat lon (find_nearest_core dist l lat lon) r := by
  simp [find_nearest_core, List.foldl_append]

theorem minDT_append_singleton {α β : Type} [LinearOrder β] (dist : α → α → α → α → β)
    (lat lon : α) (l : List (StopRow α)) (r : StopRow α) :
    minDT dist lat lon (l ++ [r]) =
      min (minDT dist lat lon l) ↑(rowDist dist lat lon r) := by
  simp [minDT, List.foldl_append]

theorem foldl_min_le_init {β γ : Type} [LinearOrder β] (f : γ → WithTop β) :
    ∀ (l : List γ) (a : WithTop β), l.foldl (fun m x => min m (f x)) a ≤ a
  | [], a => le_refl a
  | x :: t, a => le_trans (foldl_min_le_init f t (min a (f x))) (min_le_left _ _)

theorem foldl_min_le {β γ : Type} [LinearOrder β] (f : γ → WithTop β) (l : List γ)
    (a : WithTop β) (x : γ) (hx : x ∈ l) :
    l.foldl (fun m y => min m (f y)) a ≤ f x := by
  induction l generalizing a with
  | nil => cases hx
  | cons y t ih =>
    simp only [List.foldl_cons]
    rcases List.mem_cons.mp hx with h | h
    · subst h
      exact le_trans (foldl_min_le_init f t (min a (f x))) (min_le_right _ _)
    · exact ih (min a (f y)) h

theorem foldl_min_cases {β γ : Type} [LinearOrder β] (f : γ → WithTop β) (l : List γ)
    (a : WithTop β) :
    l.foldl (fun m y => min m (f y)) a = a ∨
      ∃ x ∈ l, l.foldl (fun m y => min m (f y)) a = f x := by
  induction l generalizing a with
  | nil => exact Or.inl rfl
  | cons y t ih =>
    simp only [List.foldl_cons]
    rcases ih (min a (f y)) with h | ⟨x, hx, h⟩
    · rcases le_total a (f y) with hle | hle
      · exact Or.inl (by rw [h, min_eq_left hle])
      · exact Or.inr ⟨y, List.mem_cons_self y t, by rw [h, min_eq_right hle]⟩
    · exact Or.inr ⟨x, List.mem_cons_of_mem _ hx, h⟩

theorem minDT_le {α β : Type} [LinearOrder β] (dist : α → α → α → α → β) (lat lon : α)
    (rows : List (StopRow α)) (r : StopRow α) (hr : r ∈ rows) :
    minDT dist lat lon rows ≤ ↑(rowDist dist lat lon r) :=
  foldl_min_le (fun x => (↑(rowDist dist lat lon x) : WithTop β)) rows ⊤ r hr

theorem minDT_attained_or_top {α β : Type} [LinearOrder β] (dist : α → α → α → α → β)
    (lat lon : α) (rows : List (StopRow α)) :
    minDT dist lat lon rows = ⊤ ∨
      ∃ r ∈ rows, minDT dist lat lon rows = ↑(rowDist dist lat lon r) :=
  foldl_min_cases (fun x => (↑(rowDist dist lat lon x) : WithTop β)) rows ⊤

theorem minDT_ne_top {α β : Type} [LinearOrder β] (dist : α → α → α → α → β) (lat lon : α)
    (rows : List (StopRow α)) (h : rows ≠ []) :
    minDT dist lat lon rows ≠ ⊤ := by
  cases rows with
  | nil => exact absurd rfl h
  | cons r t =>
    exact ne_top_of_le_ne_top (WithTop.coe_ne_top)
      (minDT_le dist lat lon (r :: t) r (List.mem_cons_self r t))

theorem achievers_ne_nil {α β : Type} [LinearOrder β] (dist : α → α → α → α → β)
    (lat lon : α) (rows : List (StopRow α)) (h : rows ≠ []) :
    achievers dist lat lon rows ≠ [] := by
  rcases minDT_attained_or_top dist lat lon rows with htop | ⟨x, hx, hEq⟩
  · exact absurd htop (minDT_ne_top dist lat lon rows h)
  · refine List.ne_nil_of_mem (a := x) ?_
    simp only [achievers, List.mem_filter, decide_eq_true_eq]
    exact ⟨hx, hEq.symm⟩

theorem mem_addDistinct (acc : List String) (y x : String) :
    x ∈ addDistinct acc y ↔ x ∈ acc ∨ x = y := by
  unfold addDistinct
  split
  · rename_i hy
    constructor
    · exact fun hx => Or.inl hx
    · rintro (hx | rfl)
      · exact hx
      · exact hy
  · simp [List.mem_append]

theorem mem_foldl_addDistinct (l : List String) (acc : List String) (x : String) :
    x ∈ l.foldl addDistinct acc ↔ x ∈ acc ∨ x ∈ l := by
  induction l generalizing acc with
  | nil => simp
  | cons y t ih =>
    rw [List.foldl_cons, ih, mem_addDistinct, List.mem_cons]
    tauto

theorem nodup_addDistinct (acc : List String) (y : String) (h : acc.Nodup) :
    (addDistinct acc y).Nodup := by
  unfold addDistinct
  split
  · exact h
  · rename_i hy
    rw [List.nodup_append]
    refine ⟨h, List.nodup_singleton y, ?_⟩
    intro a ha hb
    rw [List.mem_singleton] at hb
    exact hy (hb ▸ ha)

theorem nodup_foldl_addDistinct (l : List String) (acc : List String) (h : acc.Nodup) :
    (l.foldl addDistinct acc).Nodup := by
  induction l generalizing acc with
  | nil => exact h
  | cons y t ih => exact ih (addDistinct acc y) (nodup_addDistinct acc y h)

theorem addDistinct_ne_nil (acc : List String) (y : String) (h : acc ≠ []) :
    addDistinct acc y ≠ [] := by
  unfold addDistinct
  split
  · exact h
  · simp

theorem foldl_addDistinct_ne_nil (l : List String) (acc : List String) (h : acc ≠ []) :
    l.foldl addDistinct acc ≠ [] := by
  induction l generalizing acc with
  | nil => exact h
  | cons y t ih => exact ih (addDistinct acc y) (addDistinct_ne_nil acc y h)

theorem head?_append_left {γ : Type} (xs ys : List γ) (h : xs ≠ []) :
    (xs ++ ys).head? = xs.head? := by
  cases xs with
  | nil => exact absurd rfl h
  | cons a t => rfl

theorem head?_addDistinct (acc : List String) (y : String) (h : acc ≠ []) :
    (addDistinct acc y).head? = acc.head? := by
  unfold addDistinct
  split
  · rfl
  · exact head?_append_left acc [y] h

theorem head?_foldl_addDistinct (l : List String) (acc : List String) (h : acc ≠ []) :
    (l.foldl addDistinct acc).head? = acc.head? := by
  induction l generalizing acc with
  | nil => rfl
  | cons y t ih =>
    rw [List.foldl_cons, ih (addDistinct acc y) (addDistinct_ne_nil acc y h),
      head?_addDistinct acc y h]

theorem stepRow_lt {α β : Type} [LinearOrder β] (dist : α → α → α → α → β) (lat lon : α)
    (s : ScanState α β) (r : StopRow α)
    (h : (↑(dist lat lon r.lat r.long) : WithTop β) < s.nearest_distance) :
    stepRow dist lat lon s r =
      { nearest_stop := some r.stop
        nearest_stop_name_en := some r.name_en
        nearest_stop_dir := some r.dir
        nearest_distance := ↑(dist lat lon r.lat r.long)
        nearest_routes := [r.route]
        route_stops := addStop s.route_stops r.route (rowInfo r)
        nearest_lat := some r.lat
        nearest_lon := some r.long } := by
  unfold stepRow
  rw [if_pos h]

theorem stepRow_tie_new {α β : Type} [LinearOrder β] (dist : α → α → α → α → β) (lat lon : α)
    (s : ScanState α β) (r : StopRow α)
    (h1 : ¬ (↑(dist lat lon r.lat r.long) : WithTop β) < s.nearest_distance)
    (h2 : (↑(dist lat lon r.lat r.long) : WithTop β) = s.nearest_distance)
    (h3 : r.route ∉ s.nearest_routes) :
    stepRow dist lat lon s r =
      { s with nearest_routes := s.nearest_routes ++ [r.route]
               route_stops := addStop s.route_stops r.route (rowInfo r) } := by
  unfold stepRow
  rw [if_neg h1, if_pos ⟨h2, h3⟩]

theorem stepRow_other {α β : Type} [LinearOrder β] (dist : α → α → α → α → β) (lat lon : α)
    (s : ScanState α β) (r : StopRow α)
    (h1 : ¬ (↑(dist lat lon r.lat r.long) : WithTop β) < s.nearest_distance)
    (h23 : ¬ ((↑(dist lat lon r.lat r.long) : WithTop β) = s.nearest_distance
      ∧ r.route ∉ s.nearest_routes)) :
    stepRow dist lat lon s r =
      { s with route_stops := addStop s.route_stops r.route (rowInfo r) } := by
  unfold stepRow
  rw [if_neg h1, if_neg h23]

theorem scan_spec {α β : Type} [LinearOrder β] (dist : α → α → α → α → β) (lat lon : α)
    (rows : List (StopRow α)) :
    find_nearest_core dist rows lat lon = specState dist lat lon rows := by
  induction rows using List.reverseRecOn with
  | nil => rfl
  | append_singleton l r ih =>
    rw [core_append_singleton, ih]
    have hbuild : buildIndex (l ++ [r]) = addStop (buildIndex l) r.route (rowInfo r) := by
      simp [buildIndex, List.foldl_append]
    have hrd : (↑(rowDist dist lat lon r) : WithTop β) = ↑(dist lat lon r.lat r.long) := rfl
    rcases lt_trichotomy (↑(rowDist dist lat lon r) : WithTop β) (minDT dist lat lon l)
      with hlt | heq | hgt
    · -- the row is strictly closer than everything before it
      have hmin : minDT dist lat lon (l ++ [r]) = ↑(rowDist dist lat lon r) := by
        rw [minDT_append_singleton, min_eq_right hlt.le]
      have hach : achievers dist lat lon (l ++ [r]) = [r] := by
        unfold achievers
        rw [hmin, List.filter_append]
        have h1 : List.filter
            (fun x => decide ((↑(rowDist dist lat lon x) : WithTop β)
              = ↑(rowDist dist lat lon r))) l = [] := by
          rw [List.filter_eq_nil_iff]
          intro x hx
          simp only [decide_eq_true_eq]
          intro hEq
          have hle := minDT_le dist lat lon l x hx
          rw [hEq] at hle
          exact absurd hle (not_le.mpr hlt)
        have h2 : List.filter
            (fun x => decide ((↑(rowDist dist lat lon x) : WithTop β)
              = ↑(rowDist dist lat lon r))) [r] = [r] := by
          simp
        rw [h1, h2, List.nil_append]
      have hroutes : routesOf dist lat lon (l ++ [r]) = [r.route] := by
        unfold routesOf
        rw [hach]
        rfl
      rw [stepRow_lt dist lat lon (specState dist lat lon l) r (hrd ▸ hlt)]
      simp only [specState, hach, hmin, hbuild, hroutes, rowDist, List.head?_cons,
        Option.map_some']
    · -- exact tie with the current best distance
      have htop : minDT dist lat lon l ≠ ⊤ := by
        rw [← heq]
        exact WithTop.coe_ne_top
      have hlne : l ≠ [] := by
        intro hl
        rw [hl] at htop
        exact htop rfl
      have hachl : achievers dist lat lon l ≠ [] := achievers_ne_nil dist lat lon l hlne
      have hmin : minDT dist lat lon (l ++ [r]) = minDT dist lat lon l := by
        rw [minDT_append_singleton, ← heq, min_self]
      have hach : achievers dist lat lon (l ++ [r]) = achievers dist lat lon l ++ [r] := by
        unfold achievers
        rw [hmin, List.filter_append]
        congr 1
        simp [heq]
      have hroutes : routesOf dist lat lon (l ++ [r])
          = addDistinct (routesOf dist lat lon l) r.route := by
        unfold routesOf
        rw [hach, List.map_append, List.foldl_append]
        rfl
      have hh : (achievers dist lat lon (l ++ [r])).head?
          = (achievers dist lat lon l).head? := by
        rw [hach]
        exact head?_append_left _ _ hachl
      have hnlt : ¬ (↑(dist lat lon r.lat r.long) : WithTop β)
          < (specState dist lat lon l).nearest_distance := by
        show ¬ (↑(dist lat lon r.lat r.long) : WithTop β) < minDT dist lat lon l
        rw [← hrd, heq]
        exact lt_irrefl _
      rcases Decidable.em (r.route ∈ routesOf dist lat lon l) with hmem | hmem
      · -- tied route already recorded: nothing changes but the index
        have had : addDistinct (routesOf dist lat lon l) r.route
            = routesOf dist lat lon l := by
          unfold addDistinct
          rw [if_pos hmem]
        rw [stepRow_other dist lat lon (specState dist lat lon l) r hnlt
          (fun hc => hc.2 hmem)]
        simp only [specState, hmin, hbuild, hroutes, had, hh]
      · -- tied route not yet recorded: appended to the tied list
        have had : addDistinct (routesOf dist lat lon l) r.route
            = routesOf dist lat lon l ++ [r.route] := by
          unfold addDistinct
          rw [if_neg hmem]
        rw [stepRow_tie_new dist lat lon (specState dist lat lon l) r hnlt
          (hrd ▸ heq) hmem]
        simp only [specState, hmin, hbuild, hroutes, had, hh]
    · -- the row is strictly farther: nothing changes but the index
      have hmin : minDT dist lat lon (l ++ [r]) = minDT dist lat lon l := by
        rw [minDT_append_singleton, min_eq_left hgt.le]
      have hach : achievers dist lat lon (l ++ [r]) = achievers dist lat lon l := by
        unfold achievers
        rw [hmin, List.filter_append]
        have h2 : List.filter
            (fun x => decide ((↑(rowDist dist lat lon x) : WithTop β)
              = minDT dist lat lon l)) [r] = [] := by
          simp only [List.filter]
          rw [decide_eq_false (ne_of_gt hgt)]
        rw [h2, List.append_nil]
      have hroutes : routesOf dist lat lon (l ++ [r]) = routesOf dist lat lon l := by
        unfold routesOf
        rw [hach]
      have hnlt : ¬ (↑(dist lat lon r.lat r.long) : WithTop β)
          < (specState dist lat lon l).nearest_distance := by
        show ¬ (↑(dist lat lon r.lat r.long) : WithTop β) < minDT dist lat lon l
        rw [← hrd]
        exact fun hc => absurd (lt_trans hc hgt) (lt_irrefl _)
      rw [stepRow_other dist lat lon (specState dist lat lon l) r hnlt
        (by
          rintro ⟨hc, -⟩
          rw [← hrd] at hc
          exact absurd hc (ne_of_gt hgt))]
      simp only [specState, hmin, hbuild, hroutes, hach]

theorem lookupRoute_addStop_self (idx : List (String × List StopInfo)) (route : String)
    (s : StopInfo) :
    lookupRoute (addStop idx route s) route
      = some ((lookupRoute idx route).getD [] ++ [s]) := by
  induction idx with
  | nil => simp [addStop, lookupRoute]
  | cons p ps ih =>
    by_cases hp : p.1 = route
    · simp [addStop, lookupRoute, hp]
    · simp [addStop, lookupRoute, hp, ih]

theorem lookupRoute_addStop_other (idx : List (String × List StopInfo))
    (route route2 : String) (s : StopInfo) (h : route2 ≠ route) :
    lookupRoute (addStop idx route s) route2 = lookupRoute idx route2 := by
  have h2 : route ≠ route2 := Ne.symm h
  induction idx with
  | nil => simp [addStop, lookupRoute, h2]
  | cons p ps ih =>
    by_cases hp : p.1 = route
    · simp [addStop, lookupRoute, hp, h2]
    · simp [addStop, lookupRoute, hp, ih]

theorem lookupRoute_buildIndex {α : Type} (rows : List (StopRow α)) (route : String) :
    lookupRoute (buildIndex rows) route =
      if (rows.filter fun r => decide (r.route = route)).isEmpty then none
      else some ((rows.filter fun r => decide (r.route = route)).map rowInfo) := by
  induction rows using List.reverseRecOn with
  | nil => simp [buildIndex, lookupRoute]
  | append_singleton l r ih =>
    have hbuild : buildIndex (l ++ [r]) = addStop (buildIndex l) r.route (rowInfo r) := by
      simp [buildIndex, List.foldl_append]
    rw [hbuild]
    by_cases hr : r.route = route
    · subst hr
      have hfr : ((l ++ [r]).filter fun x => decide (x.route = r.route))
          = (l.filter fun x => decide (x.route = r.route)) ++ [r] := by
        simp [List.filter_append]
      rw [lookupRoute_addStop_self, ih, hfr]
      by_cases hfl : (l.filter fun x => decide (x.route = r.route)) = []
      · rw [hfl]
        simp
      · rw [if_neg (by simp [hfl]), if_neg (by simp)]
        simp [List.map_append]
    · have hfr : ((l ++ [r]).filter fun x => decide (x.route = route))
          = l.filter fun x => decide (x.route = route) := by
        simp [List.filter_append, hr]
      rw [lookupRoute_addStop_other _ _ _ _ (fun h => hr h.symm), ih, hfr]

theorem scanRaw_error {β : Type} [LinearOrder β]
    (dist : PyFloat → PyFloat → PyFloat → PyFloat → β) (lat lon : PyFloat)
    (raw : List RawRow) :
    ∀ (s : ScanState PyFloat β), (∃ r ∈ raw, parseRow r = none) →
      scanRaw dist lat lon s raw = Except.error "ValueError" := by
  induction raw with
  | nil =>
    rintro s ⟨r, hr, -⟩
    cases hr
  | cons x t ih =>
    rintro s ⟨r, hr, hnone⟩
    rcases List.mem_cons.mp hr with rfl | hrt
    · simp [scanRaw, hnone]
    · cases hx : parseRow x with
      | none => simp [scanRaw, hx]
      | some row => simpa [scanRaw, hx] using ih _ ⟨r, hrt, hnone⟩

theorem minDT_perm {α β : Type} [LinearOrder β] (dist : α → α → α → α → β) (lat lon : α)
    {l l2 : List (StopRow α)} (h : l.Perm l2) :
    minDT dist lat lon l = minDT dist lat lon l2 := by
  have key : ∀ (a b : List (StopRow α)), a.Perm b →
      minDT dist lat lon a ≤ minDT dist lat lon b := by
    intro a b hab
    rcases minDT_attained_or_top dist lat lon b with htop | ⟨x, hx, hEq⟩
    · rw [htop]
      exact le_top
    · rw [hEq]
      exact minDT_le dist lat lon a x (hab.mem_iff.mpr hx)
  exact le_antisymm (key l l2 h) (key l2 l h.symm)

theorem mem_routesOf {α β : Type} [LinearOrder β] (dist : α → α → α → α → β) (lat lon : α)
    (rows : List (StopRow α)) (x : String) :
    x ∈ routesOf dist lat lon rows ↔
      ∃ r ∈ rows, (↑(rowDist dist lat lon r) : WithTop β) = minDT dist lat lon rows
        ∧ r.route = x := by
  unfold routesOf
  rw [mem_foldl_addDistinct]
  simp only [List.not_mem_nil, false_or, List.mem_map, achievers, List.mem_filter,
    decide_eq_true_eq]
  constructor
  · rintro ⟨a, ⟨ha, hd⟩, rfl⟩
    exact ⟨a, ha, hd, rfl⟩
  · rintro ⟨r, hr, hd, rfl⟩
    exact ⟨r, ⟨hr, hd⟩, rfl⟩

theorem achievers_pair {α β : Type} [LinearOrder β] (dist : α → α → α → α → β) (lat lon : α)
    (r1 r2 : StopRow α) (h : rowDist dist lat lon r1 = rowDist dist lat lon r2) :
    achievers dist lat lon [r1, r2] = [r1, r2] := by
  have h1 : (↑(rowDist dist lat lon r1) : WithTop β) = ↑(rowDist dist lat lon r2) := by
    rw [h]
  have hm : minDT dist lat lon [r1, r2] = ↑(rowDist dist lat lon r2) := by
    unfold minDT
    simp only [List.foldl_cons, List.foldl_nil]
    rw [min_eq_right (le_top (a := (↑(rowDist dist lat lon r1) : WithTop β))), h, min_self]
  unfold achievers
  rw [hm]
  simp [List.filter, h1]

theorem core_pair_stop {α β : Type} [LinearOrder β] (dist : α → α → α → α → β) (lat lon : α)
    (r1 r2 : StopRow α) (h : rowDist dist lat lon r1 = rowDist dist lat lon r2) :
    (find_nearest_core dist [r1, r2] lat lon).nearest_stop = some r1.stop := by
  rw [scan_spec]
  show ((achievers dist lat lon [r1, r2]).head?).map (fun r => r.stop) = some r1.stop
  rw [achievers_pair dist lat lon r1 r2 h]
  rfl

/-- Claim C1: for every non-empty table and every query point,
find_nearest_bus_stop returns a stop whose great-circle (haversine, Earth
radius 6371 km) distance to the query point is the minimum over all rows of
the table, and returns that minimal distance as the nearest distance. -/
theorem locate_returns_minimal_stop (rows : List (StopRow ℝ)) (lat lon : ℝ)
    (h : rows ≠ []) :
    ∃ r ∈ rows,
      (find_nearest_bus_stop rows lat lon).nearest_stop = some r.stop ∧
      (find_nearest_bus_stop rows lat lon).nearest_distance
        = ↑(haversine_distance lat lon r.lat r.long) ∧
      ∀ r2 ∈ rows,
        haversine_distance lat lon r.lat r.long
          ≤ haversine_distance lat lon r2.lat r2.long := by
  have hach := achievers_ne_nil haversine_distance lat lon rows h
  cases hA : achievers haversine_distance lat lon rows with
  | nil => exact absurd hA hach
  | cons a t =>
    have haMem : a ∈ achievers haversine_distance lat lon rows := by
      rw [hA]
      exact List.mem_cons_self a t
    have h2 : a ∈ rows ∧
        (↑(rowDist haversine_distance lat lon a) : WithTop ℝ)
          = minDT haversine_distance lat lon rows := by
      have h3 := haMem
      simp only [achievers, List.mem_filter, decide_eq_true_eq] at h3
      exact h3
    obtain ⟨haRows, haMin⟩ := h2
    refine ⟨a, haRows, ?_, ?_, ?_⟩
    · rw [find_nearest_bus_stop, scan_spec]
      show ((achievers haversine_distance lat lon rows).head?).map (fun r => r.stop)
        = some a.stop
      rw [hA]
      rfl
    · rw [find_nearest_bus_stop, scan_spec]
      show minDT haversine_distance lat lon rows
        = ↑(haversine_distance lat lon a.lat a.long)
      rw [← haMin]
      rfl
    · intro r2 hr2
      have hle := minDT_le haversine_distance lat lon rows r2 hr2
      rw [← haMin] at hle
      exact_mod_cast hle

/-- Claim C1, witness: the one-row table consisting of row A is non-empty and
the theorem applies to it at the query point (23, 113). -/
theorem locate_returns_minimal_stop_witness :
    ([rowA] ≠ []) ∧
    ∃ r ∈ [rowA],
      (find_nearest_bus_stop [rowA] 23 113).nearest_stop = some r.stop ∧
      (find_nearest_bus_stop [rowA] 23 113).nearest_distance
        = ↑(haversine_distance 23 113 r.lat r.long) ∧
      ∀ r2 ∈ [rowA],
        haversine_distance 23 113 r.lat r.long
          ≤ haversine_distance 23 113 r2.lat r2.long :=
  ⟨by simp, locate_returns_minimal_stop [rowA] 23 113 (by simp)⟩

/-- Claim C9: for every non-empty table, the returned nearest latitude and
longitude are exactly the coordinates of a row whose other fields (stop id,
name, direction) are the returned nearest-stop fields, and the returned
nearest distance equals the haversine distance from the query point to those
returned coordinates. -/
theorem result_fields_mutually_consistent (rows : List (StopRow ℝ)) (lat lon : ℝ)
    (h : rows ≠ []) :
    ∃ r ∈ rows,
      (find_nearest_bus_stop rows lat lon).nearest_stop = some r.stop ∧
      (find_nearest_bus_stop rows lat lon).nearest_stop_name_en = some r.name_en ∧
      (find_nearest_bus_stop rows lat lon).nearest_stop_dir = some r.dir ∧
      (find_nearest_bus_stop rows lat lon).nearest_lat = some r.lat ∧
      (find_nearest_bus_stop rows lat lon).nearest_lon = some r.long ∧
      (find_nearest_bus_stop rows lat lon).nearest_distance
        = ↑(haversine_distance lat lon r.lat r.long) := by
  have hach := achievers_ne_nil haversine_distance lat lon rows h
  cases hA : achievers haversine_distance lat lon rows with
  | nil => exact absurd hA hach
  | cons a t =>
    have haMem : a ∈ achievers haversine_distance lat lon rows := by
      rw [hA]
      exact List.mem_cons_self a t
    have h2 : a ∈ rows ∧
        (↑(rowDist haversine_distance lat lon a) : WithTop ℝ)
          = minDT haversine_distance lat lon rows := by
      have h3 := haMem
      simp only [achievers, List.mem_filter, decide_eq_true_eq] at h3
      exact h3
    obtain ⟨haRows, haMin⟩ := h2
    refine ⟨a, haRows, ?_, ?_, ?_, ?_, ?_, ?_⟩ <;>
      rw [find_nearest_bus_stop, scan_spec]
    · show ((achievers haversine_distance lat lon rows).head?).map (fun r => r.stop)
        = some a.stop
      rw [hA]
      rfl
    · show ((achievers haversine_distance lat lon rows).head?).map (fun r => r.name_en)
        = some a.name_en
      rw [hA]
      rfl
    · show ((achievers haversine_distance lat lon rows).head?).map (fun r => r.dir)
        = some a.dir
      rw [hA]
      rfl
    · show ((achievers haversine_distance lat lon rows).head?).map (fun r => r.lat)
        = some a.lat
      rw [hA]
      rfl
    · show ((achievers haversine_distance lat lon rows).head?).map (fun r => r.long)
        = some a.long
      rw [hA]
      rfl
    · show minDT haversine_distance lat lon rows
        = ↑(haversine_distance lat lon a.lat a.long)
      rw [← haMin]
      rfl

/-- Claim C9, witness: the theorem applied to the one-row table consisting of
row C at the query point (22, 114). -/
theorem result_fields_mutually_consistent_witness :
    ([rowC] ≠ []) ∧
    ∃ r ∈ [rowC],
      (find_nearest_bus_stop [rowC] 22 114).nearest_stop = some r.stop ∧
      (find_nearest_bus_stop [rowC] 22 114).nearest_stop_name_en = some r.name_en ∧
      (find_nearest_bus_stop [rowC] 22 114).nearest_stop_dir = some r.dir ∧
      (find_nearest_bus_stop [rowC] 22 114).nearest_lat = some r.lat ∧
      (find_nearest_bus_stop [rowC] 22 114).nearest_lon = some r.long ∧
      (find_nearest_bus_stop [rowC] 22 114).nearest_distance
        = ↑(haversine_distance 22 114 r.lat r.long) :=
  ⟨by simp, result_fields_mutually_consistent [rowC] 22 114 (by simp)⟩

/-- Claim C10: for every non-empty table, the returned nearest_routes list is
non-empty, contains no duplicate route identifiers, and its first element is
the route of the row whose fields are returned as the nearest stop. -/
theorem routes_nonempty_nodup_head (rows : List (StopRow ℝ)) (lat lon : ℝ)
    (h : rows ≠ []) :
    (find_nearest_bus_stop rows lat lon).nearest_routes ≠ [] ∧
    (find_nearest_bus_stop rows lat lon).nearest_routes.Nodup ∧
    ∃ r ∈ rows,
      (find_nearest_bus_stop rows lat lon).nearest_stop = some r.stop ∧
      (find_nearest_bus_stop rows lat lon).nearest_lat = some r.lat ∧
      (find_nearest_bus_stop rows lat lon).nearest_lon = some r.long ∧
      (find_nearest_bus_stop rows lat lon).nearest_routes.head? = some r.route := by
  have hach := achievers_ne_nil haversine_distance lat lon rows h
  cases hA : achievers haversine_distance lat lon rows with
  | nil => exact absurd hA hach
  | cons a t =>
    have haMem : a ∈ achievers haversine_distance lat lon rows := by
      rw [hA]
      exact List.mem_cons_self a t
    have haRows : a ∈ rows := by
      have h3 := haMem
      simp only [achievers, List.mem_filter, decide_eq_true_eq] at h3
      exact h3.1
    have hroutes : (find_nearest_bus_stop rows lat lon).nearest_routes
        = (List.map (fun r => r.route) t).foldl addDistinct [a.route] := by
      rw [find_nearest_bus_stop, scan_spec]
      show routesOf haversine_distance lat lon rows = _
      unfold routesOf
      rw [hA]
      rfl
    refine ⟨?_, ?_, a, haRows, ?_, ?_, ?_, ?_⟩
    · rw [hroutes]
      exact foldl_addDistinct_ne_nil _ [a.route] (by simp)
    · rw [hroutes]
      exact nodup_foldl_addDistinct _ [a.route] (List.nodup_singleton a.route)
    · rw [find_nearest_bus_stop, scan_spec]
      show ((achievers haversine_distance lat lon rows).head?).map (fun r => r.stop)
        = some a.stop
      rw [hA]
      rfl
    · rw [find_nearest_bus_stop, scan_spec]
      show ((achievers haversine_distance lat lon rows).head?).map (fun r => r.lat)
        = some a.lat
      rw [hA]
      rfl
    · rw [find_nearest_bus_stop, scan_spec]
      show ((achievers haversine_distance lat lon rows).head?).map (fun r => r.long)
        = some a.long
      rw [hA]
      rfl
    · rw [hroutes, head?_foldl_addDistinct _ [a.route] (by simp)]
      rfl

/-- Claim C10, witness: the theorem applied to the two-row table of rows A
and B at the query point (22, 114). -/
theorem routes_nonempty_nodup_head_witness :
    ([rowA, rowB] ≠ []) ∧
    ((find_nearest_bus_stop [rowA, rowB] 22 114).nearest_routes ≠ [] ∧
    (find_nearest_bus_stop [rowA, rowB] 22 114).nearest_routes.Nodup ∧
    ∃ r ∈ [rowA, rowB],
      (find_nearest_bus_stop [rowA, rowB] 22 114).nearest_stop = some r.stop ∧
      (find_nearest_bus_stop [rowA, rowB] 22 114).nearest_lat = some r.lat ∧
      (find_nearest_bus_stop [rowA, rowB] 22 114).nearest_lon = some r.long ∧
      (find_nearest_bus_stop [rowA, rowB] 22 114).nearest_routes.head? = some r.route) :=
  ⟨by simp, routes_nonempty_nodup_head [rowA, rowB] 22 114 (by simp)⟩

/-- Claim C2: when two or more rows achieve exactly the minimal distance, the
returned nearest-stop fields are those of the first minimum-achieving row in
scan order, and the tied route list is the fold of addDistinct over the
routes of the minimum-achieving rows (so a route already recorded is not
re-added); every tied row's route is contained in the returned route list. -/
theorem tie_first_wins_routes_accumulate (rows : List (StopRow ℝ)) (lat lon : ℝ)
    (h2 : 2 ≤ (achievers haversine_distance lat lon rows).length) :
    ∃ r0, (achievers haversine_distance lat lon rows).head? = some r0 ∧
      (find_nearest_bus_stop rows lat lon).nearest_stop = some r0.stop ∧
      (find_nearest_bus_stop rows lat lon).nearest_stop_name_en = some r0.name_en ∧
      (find_nearest_bus_stop rows lat lon).nearest_stop_dir = some r0.dir ∧
      (find_nearest_bus_stop rows lat lon).nearest_lat = some r0.lat ∧
      (find_nearest_bus_stop rows lat lon).nearest_lon = some r0.long ∧
      (find_nearest_bus_stop rows lat lon).nearest_routes
        = ((achievers haversine_distance lat lon rows).map (fun r => r.route)).foldl
            addDistinct [] ∧
      ∀ r ∈ achievers haversine_distance lat lon rows,
        r.route ∈ (find_nearest_bus_stop rows lat lon).nearest_routes := by
  cases hA : achievers haversine_distance lat lon rows with
  | nil =>
    rw [hA] at h2
    simp at h2
  | cons a t =>
    refine ⟨a, rfl, ?_, ?_, ?_, ?_, ?_, ?_, ?_⟩
    · rw [find_nearest_bus_stop, scan_spec]
      show ((achievers haversine_distance lat lon rows).head?).map (fun r => r.stop)
        = some a.stop
      rw [hA]
      rfl
    · rw [find_nearest_bus_stop, scan_spec]
      show ((achievers haversine_distance lat lon rows).head?).map (fun r => r.name_en)
        = some a.name_en
      rw [hA]
      rfl
    · rw [find_nearest_bus_stop, scan_spec]
      show ((achievers haversine_distance lat lon rows).head?).map (fun r => r.dir)
        = some a.dir
      rw [hA]
      rfl
    · rw [find_nearest_bus_stop, scan_spec]
      show ((achievers haversine_distance lat lon rows).head?).map (fun r => r.lat)
        = some a.lat
      rw [hA]
      rfl
    · rw [find_nearest_bus_stop, scan_spec]
      show ((achievers haversine_distance lat lon rows).head?).map (fun r => r.long)
        = some a.long
      rw [hA]
      rfl
    · rw [find_nearest_bus_stop, scan_spec]
      show routesOf haversine_distance lat lon rows = _
      unfold routesOf
      rw [hA]
    · intro r hr
      rw [find_nearest_bus_stop, scan_spec]
      show r.route ∈ routesOf haversine_distance lat lon rows
      unfold routesOf
      rw [mem_foldl_addDistinct, hA]
      exact Or.inr (List.mem_map_of_mem _ hr)

/-- Claim C2, witness: rows A and B share the coordinates (22, 114) but carry
the distinct routes 1 and 2; querying at (22, 114) both achieve the minimal
distance, so the theorem applies, and its route-fold conclusion evaluates to
the two-element route list. -/
theorem tie_first_wins_routes_accumulate_witness :
    (2 ≤ (achievers haversine_distance 22 114 [rowA, rowB]).length) ∧
    (∃ r0, (achievers haversine_distance 22 114 [rowA, rowB]).head? = some r0 ∧
      (find_nearest_bus_stop [rowA, rowB] 22 114).nearest_stop = some r0.stop ∧
      (find_nearest_bus_stop [rowA, rowB] 22 114).nearest_stop_name_en = some r0.name_en ∧
      (find_nearest_bus_stop [rowA, rowB] 22 114).nearest_stop_dir = some r0.dir ∧
      (find_nearest_bus_stop [rowA, rowB] 22 114).nearest_lat = some r0.lat ∧
      (find_nearest_bus_stop [rowA, rowB] 22 114).nearest_lon = some r0.long ∧
      (find_nearest_bus_stop [rowA, rowB] 22 114).nearest_routes
        = ((achievers haversine_distance 22 114 [rowA, rowB]).map (fun r => r.route)).foldl
            addDistinct [] ∧
      ∀ r ∈ achievers haversine_distance 22 114 [rowA, rowB],
        r.route ∈ (find_nearest_bus_stop [rowA, rowB] 22 114).nearest_routes) := by
  have hpair : achievers haversine_distance 22 114 [rowA, rowB] = [rowA, rowB] :=
    achievers_pair haversine_distance 22 114 rowA rowB rfl
  have hlen : 2 ≤ (achievers haversine_distance 22 114 [rowA, rowB]).length := by
    rw [hpair]
    exact le_refl 2
  exact ⟨hlen, tie_first_wins_routes_accumulate [rowA, rowB] 22 114 hlen⟩

/-- Claim C3 (amended): on the empty table the scan does not fail; it returns
the initial state whose sentinel distance is infinite (top) and whose stop
fields are all none. -/
theorem empty_table_returns_sentinel (lat lon : ℝ) :
    find_nearest_bus_stop [] lat lon = initState ∧
    (initState : ScanState ℝ ℝ).nearest_distance = ⊤ ∧
    (initState : ScanState ℝ ℝ).nearest_stop = none :=
  ⟨rfl, rfl, rfl⟩

/-- Claim C3, counterexample to the original claim: on the empty table the
raw-row entry point returns a successful Except.ok carrying the initial
state — no EmptyDataset error is raised — and the scan's result on the empty
table carries the sentinel infinite distance and a none stop. -/
theorem empty_table_no_error_cex :
    find_nearest_from_raw zeroDist [] (PyFloat.finite 22) (PyFloat.finite 114)
      = Except.ok initState ∧
    (find_nearest_bus_stop [] 22 114).nearest_distance = ⊤ ∧
    (find_nearest_bus_stop [] 22 114).nearest_stop = none :=
  ⟨rfl, rfl, rfl⟩

/-- Claim C4 (amended): under any permutation of the table's rows the
returned nearest distance is unchanged, and the set of tied routes is
unchanged (the same route identifiers are members of the tied list); the
particular nearest-stop fields and the order of the tied list may differ. -/
theorem scan_permutation_invariants (rows1 rows2 : List (StopRow ℝ)) (lat lon : ℝ)
    (h : rows1.Perm rows2) :
    (find_nearest_bus_stop rows1 lat lon).nearest_distance
      = (find_nearest_bus_stop rows2 lat lon).nearest_distance ∧
    ∀ x, x ∈ (find_nearest_bus_stop rows1 lat lon).nearest_routes
      ↔ x ∈ (find_nearest_bus_stop rows2 lat lon).nearest_routes := by
  have hm := minDT_perm haversine_distance lat lon h
  constructor
  · rw [find_nearest_bus_stop, find_nearest_bus_stop, scan_spec, scan_spec]
    exact hm
  · intro x
    rw [find_nearest_bus_stop, find_nearest_bus_stop, scan_spec, scan_spec]
    show x ∈ routesOf haversine_distance lat lon rows1
      ↔ x ∈ routesOf haversine_distance lat lon rows2
    rw [mem_routesOf, mem_routesOf]
    constructor
    · rintro ⟨r, hr, hd, hx⟩
      exact ⟨r, h.mem_iff.mp hr, by rw [← hm]; exact hd, hx⟩
    · rintro ⟨r, hr, hd, hx⟩
      exact ⟨r, h.mem_iff.mpr hr, by rw [hm]; exact hd, hx⟩

/-- Claim C4, witness: the theorem applied to the swap permutation of the
two-row table of rows A and B at the query point (22, 114). -/
theorem scan_permutation_invariants_witness :
    ([rowA, rowB].Perm [rowB, rowA]) ∧
    ((find_nearest_bus_stop [rowA, rowB] 22 114).nearest_distance
      = (find_nearest_bus_stop [rowB, rowA] 22 114).nearest_distance ∧
    ∀ x, x ∈ (find_nearest_bus_stop [rowA, rowB] 22 114).nearest_routes
      ↔ x ∈ (find_nearest_bus_stop [rowB, rowA] 22 114).nearest_routes) :=
  ⟨List.Perm.swap rowB rowA [],
    scan_permutation_invariants [rowA, rowB] [rowB, rowA] 22 114
      (List.Perm.swap rowB rowA [])⟩

/-- Claim C4, counterexample to the original claim: rows A and B are tied at
distance zero from the query point (22, 114); swapping them changes the
returned nearest-stop identity from A to B, so the returned nearest-stop
fields are not permutation invariant. -/
theorem scan_not_permutation_invariant_cex :
    ([rowA, rowB].Perm [rowB, rowA]) ∧
    (find_nearest_bus_stop [rowA, rowB] 22 114).nearest_stop
      ≠ (find_nearest_bus_stop [rowB, rowA] 22 114).nearest_stop := by
  refine ⟨List.Perm.swap rowB rowA [], ?_⟩
  rw [find_nearest_bus_stop, find_nearest_bus_stop,
    core_pair_stop haversine_distance 22 114 rowA rowB rfl,
    core_pair_stop haversine_distance 22 114 rowB rowA rfl]
  simp [rowA, rowB]

/-- Claim C5 (amended): a row whose latitude or longitude does not parse as a
Python float aborts the whole load with a ValueError — no partial result is
produced; numeric coordinates are never range checked. -/
theorem malformed_row_aborts {β : Type} [LinearOrder β]
    (dist : PyFloat → PyFloat → PyFloat → PyFloat → β) (raw : List RawRow)
    (lat lon : PyFloat) (h : ∃ r ∈ raw, parseRow r = none) :
    find_nearest_from_raw dist raw lat lon = Except.error "ValueError" :=
  scanRaw_error dist lat lon raw initState h

/-- Claim C5, witness: the single-row table whose latitude field is the
non-numeric string abc makes the load abort with ValueError. -/
theorem malformed_row_aborts_witness :
    (∃ r ∈ [rawBadRow], parseRow r = none) ∧
    find_nearest_from_raw zeroDist [rawBadRow] (PyFloat.finite 22) (PyFloat.finite 114)
      = Except.error "ValueError" := by
  have h : ∃ r ∈ [rawBadRow], parseRow r = none :=
    ⟨rawBadRow, List.mem_cons_self _ _, rfl⟩
  exact ⟨h, malformed_row_aborts zeroDist [rawBadRow] _ _ h⟩

/-- Claim C5, counterexample to the original claim: the row whose latitude
field is the string 200 parses to the finite value 200, which lies outside
the range [-90, 90], yet the load succeeds — no MalformedRow failure occurs
for out-of-range coordinates. -/
theorem out_of_range_row_accepted_cex :
    pyFloat rawRangeRow.lat = some (PyFloat.finite (decimalToRat 200 0 0 0)) ∧
    (90 : ℚ) < decimalToRat 200 0 0 0 ∧
    exceptOk (find_nearest_from_raw zeroDist [rawRangeRow]
      (PyFloat.finite 22) (PyFloat.finite 114)) = true := by
  refine ⟨rfl, ?_, by decide⟩
  unfold decimalToRat
  norm_num

/-- Claim C6 (amended): a query string that does not split on a comma into
exactly two chunks each accepted by Python float conversion is rejected with
an error before any scan; finiteness of the two values is not checked. -/
theorem malformed_query_rejected {β : Type} [LinearOrder β]
    (dist : PyFloat → PyFloat → PyFloat → PyFloat → β)
    (rows : List (StopRow PyFloat)) (s : String) (h : parse_gps s = none) :
    locate_on_query dist rows s = Except.error "invalid GPS coordinates" := by
  unfold locate_on_query
  rw [h]

/-- Claim C6, witness: the query string 22.0 (missing the longitude) fails to
parse and is rejected before the scan. -/
theorem malformed_query_rejected_witness :
    parse_gps "22.0" = none ∧
    locate_on_query zeroDist [] "22.0" = Except.error "invalid GPS coordinates" := by
  have h : parse_gps "22.0" = none := by decide
  exact ⟨h, malformed_query_rejected zeroDist [] "22.0" h⟩

/-- Claim C6, counterexample to the original claim: the query string inf,0
parses successfully with a non-finite first value, and the locator is invoked
on it — the program does not restrict the scan to finite query values. -/
theorem nonfinite_query_scan_runs_cex :
    (parse_gps "inf,0").map Prod.fst = some PyFloat.inf ∧
    PyFloat.isFinite PyFloat.inf = false ∧
    locate_on_query zeroDist [] "inf,0" = Except.ok initState :=
  ⟨rfl, rfl, rfl⟩

/-- Claim C7: for every route present in the table, the route summary of the
scan's route index returns the stop descriptors of the first and the last row
in file order bearing that route. -/
theorem routeSummary_first_last (rows : List (StopRow ℝ)) (lat lon : ℝ) (route : String)
    (h : (rows.filter fun r => decide (r.route = route)) ≠ []) :
    ∃ f g, (rows.filter fun r => decide (r.route = route)).head? = some f ∧
      (rows.filter fun r => decide (r.route = route)).getLast? = some g ∧
      routeSummary (find_nearest_bus_stop rows lat lon).route_stops route
        = some (rowInfo f, rowInfo g) := by
  cases hfl : rows.filter (fun r => decide (r.route = route)) with
  | nil => exact absurd hfl h
  | cons a t =>
    cases hg : (a :: t).getLast? with
    | none =>
      rw [List.getLast?_eq_none_iff] at hg
      cases hg
    | some g =>
      refine ⟨a, g, rfl, rfl, ?_⟩
      have hrs : (find_nearest_bus_stop rows lat lon).route_stops = buildIndex rows := by
        rw [find_nearest_bus_stop, scan_spec]
        rfl
      unfold routeSummary
      rw [hrs, lookupRoute_buildIndex, if_neg (by simp [h]), hfl]
      simp only [List.head?_map, List.getLast?_map, List.head?_cons, hg,
        Option.map_some']

/-- Claim C7, witness: on the scenario table with rows A (route 1),
B (route 2), C (route 1) in that order, the summary of route 1 is the pair of
the descriptors of A and C. -/
theorem routeSummary_first_last_witness :
    ((scenarioRows.filter fun r => decide (r.route = "1")) ≠ []) ∧
    routeSummary (find_nearest_bus_stop scenarioRows 22 114).route_stops "1"
      = some (("A", "Stop A", "O"), ("C", "Stop C", "I")) := by
  have hfl : (scenarioRows.filter fun r => decide (r.route = "1")) = [rowA, rowC] := rfl
  have h : (scenarioRows.filter fun r => decide (r.route = "1")) ≠ [] := by
    rw [hfl]
    simp
  obtain ⟨f, g, hf, hg, hs⟩ := routeSummary_first_last scenarioRows 22 114 "1" h
  rw [hfl] at hf hg
  have hf2 : f = rowA := by
    have h3 : some rowA = some f := hf
    exact (Option.some.inj h3).symm
  have hg2 : g = rowC := by
    have h3 : some rowC = some g := hg
    exact (Option.some.inj h3).symm
  rw [hf2, hg2] at hs
  exact ⟨h, hs⟩

/-- Claim C8: every route value present in the table appears as a key of the
route index built by the scan, and the length of its stored sequence equals
the number of rows of the table bearing that route. -/
theorem route_index_complete (rows : List (StopRow ℝ)) (lat lon : ℝ) (route : String)
    (h : ∃ r ∈ rows, r.route = route) :
    ∃ seq, lookupRoute (find_nearest_bus_stop rows lat lon).route_stops route = some seq ∧
      seq.length = (rows.filter fun r => decide (r.route = route)).length := by
  have hne : (rows.filter fun r => decide (r.route = route)) ≠ [] := by
    obtain ⟨r, hr, hroute⟩ := h
    refine List.ne_nil_of_mem (a := r) ?_
    rw [List.mem_filter]
    exact ⟨hr, by simp [hroute]⟩
  have hrs : (find_nearest_bus_stop rows lat lon).route_stops = buildIndex rows := by
    rw [find_nearest_bus_stop, scan_spec]
    rfl
  rw [hrs, lookupRoute_buildIndex, if_neg (by simp [hne])]
  exact ⟨_, rfl, by rw [List.length_map]⟩

/-- Claim C8, witness: on the scenario table, route 1 is present, its stored
sequence exists and its length equals the two rows bearing route 1. -/
theorem route_index_complete_witness :
    (∃ r ∈ scenarioRows, r.route = "1") ∧
    ∃ seq, lookupRoute (find_nearest_bus_stop scenarioRows 22 114).route_stops "1"
        = some seq ∧
      seq.length = (scenarioRows.filter fun r => decide (r.route = "1")).length := by
  have h : ∃ r ∈ scenarioRows, r.route = "1" :=
    ⟨rowA, List.mem_cons_self rowA [rowB, rowC], rfl⟩
  exact ⟨h, route_index_complete scenarioRows 22 114 "1" h⟩
